import Mathlib

/-!
Shallow embedding of PriorityStoreLite (src/api.py) over exact rational
arithmetic.  Python integers are unbounded, and the float computations of
the source (effectiveness scores, priority shares, thresholds) are modelled
as exact rationals.  Node ids and priorities are naturals; the file catalog
(the `self.metadata` dict minus its reserved "PSL" snapshot key) is an
association list; the presence of the "PSL" snapshot key in the dict is the
boolean `hasPSL` (set by `persist_metadata`).  Fallible operations return a
result constructor alongside the (possibly mutated) state; a failed Python
`assert` is the `assertFail` outcome, which carries the state exactly as it
was at the moment the assertion fired.
-/

namespace PSLModel

/-- FILE_FREQUENCY target shares from api.py line 21: {0: 0.01, 1: 0.09, 2: 0.99}. -/
def FILE_FREQUENCY : Nat → ℚ
  | 0 => 1/100
  | 1 => 9/100
  | 2 => 99/100
  | _ => 0

/-- Python `int(x)` on a float truncates toward zero. -/
def pyInt (q : ℚ) : ℤ := if q < 0 then ⌈q⌉ else ⌊q⌋

/-- Python `max(l)` on a nonempty list of floats (value of the maximum). -/
def listMax : List ℚ → ℚ
  | [] => 0
  | x :: xs => xs.foldl max x

/-- Helper for `idxOfMax`: scan with the best index and value so far. -/
def argmaxAux : List ℚ → Nat → ℚ → Nat → Nat
  | [], bi, _, _ => bi
  | x :: xs, bi, bv, i => if bv < x then argmaxAux xs i x (i+1) else argmaxAux xs bi bv (i+1)

/-- `np.argmax`: index of the first occurrence of the maximum (0 on an empty list). -/
def idxOfMax : List ℚ → Nat
  | [] => 0
  | x :: xs => argmaxAux xs 0 x 1

/-- A record of the file catalog: `node_id`, `priority`, `size` fields of the
metadata entry written by `create_file` (timestamps are not modelled; no claim
mentions them). -/
structure FileEntry where
  node_id : Nat
  priority : Nat
  size : ℚ
deriving DecidableEq

/-- Lookup in the association list modelling the metadata dict (first match,
as in a dict where keys are unique). -/
def lookupMeta : List (String × FileEntry) → String → Option FileEntry
  | [], _ => none
  | kv :: rest, name => if kv.1 = name then some kv.2 else lookupMeta rest name

/-- Python `del metadata[filename]`: remove the (unique) binding of the key. -/
def removeKey : List (String × FileEntry) → String → List (String × FileEntry)
  | [], _ => []
  | kv :: rest, name => if kv.1 = name then rest else kv :: removeKey rest name

/-- The in-memory state of a `PriorityStoreLite` instance: the per-node arrays,
the block size, the cumulative priority counters, the file catalog, and whether
the reserved "PSL" snapshot key is present in the metadata dict. -/
structure PSL where
  num : Nat
  block_size : ℚ
  capacities : List ℚ
  available : List ℚ
  latencies : List ℚ
  effective : List ℚ
  priority_counter : List ℚ
  metadata : List (String × FileEntry)
  hasPSL : Bool
deriving DecidableEq

/-- The value `effectiveness_for_node` (api.py lines 94-102) writes into
`self.effective[i]`:
`worst_latency = max(latencies) * capacities[argmax(latencies)] / block_size`;
an empty node gets `2*latencies[i]/worst_latency`, otherwise
`max(0.5*(capacities[i]-available[i])*latencies[i]/block_size, latencies[i]) / worst_latency`. -/
def effFor (s : PSL) (i : Nat) : ℚ :=
  let worst_latency := listMax s.latencies * s.capacities.getD (idxOfMax s.latencies) 0 / s.block_size
  if s.capacities.getD i 0 = s.available.getD i 0 then
    2 * s.latencies.getD i 0 / worst_latency
  else
    max ((1/2) * (s.capacities.getD i 0 - s.available.getD i 0) * s.latencies.getD i 0 / s.block_size)
        (s.latencies.getD i 0) / worst_latency

/-- `effectiveness_for_node(i)`: recompute `effective[i]` in place; no other
index of `effective` and no other field is touched. -/
def effectiveness_for_node (s : PSL) (i : Nat) : PSL :=
  { s with effective := s.effective.set i (effFor s i) }

/-- Insert index `i` into an (already descending) index list: `i` goes before
the first index whose score is not above the score of `i`.  This reproduces the
stable descending order of `sorted(..., reverse=True)` when the inserted
indices arrive in ascending original position. -/
def insertDesc (eff : List ℚ) (i : Nat) : List Nat → List Nat
  | [] => [i]
  | j :: js => if eff.getD j 0 ≤ eff.getD i 0 then i :: j :: js else j :: insertDesc eff i js

/-- Stable insertion sort of an index list, descending by score. -/
def sortDescIdx (eff : List ℚ) : List Nat → List Nat
  | [] => []
  | i :: is => insertDesc eff i (sortDescIdx eff is)

/-- The ranking built in `placement_node_id` / `fake_placement` (api.py
lines 194-195): `[i[0] for i in sorted(enumerate(eff), key=lambda x: x[1],
reverse=True)]` — node indices in stable DESCENDING order of their
effectiveness score. -/
def sorted_eff_list (eff : List ℚ) : List Nat :=
  sortDescIdx eff (List.range eff.length)

/-- `get_effective_node_id(sorted_eff, priority)` (api.py lines 154-174).
`sorted_eff[k]` is modelled as `getD k 0`; every reachable access is in
bounds (indices are `max(int(still_missing*n), 1)` with `still_missing`
below `0.1`). -/
def get_effective_node_id (s : PSL) (sorted_eff : List Nat) (priority : Nat) : Nat :=
  let n : ℚ := (sorted_eff.length : ℚ)
  let node := sorted_eff.getD 0 0
  let high_pr_share := s.priority_counter.getD 0 0 / s.capacities.sum
  if priority = 0 ∨ s.available.sum > (1/10) * s.capacities.sum then
    node
  else if priority = 1 then
    if high_pr_share < FILE_FREQUENCY 0 then
      let still_missing := FILE_FREQUENCY 0 - high_pr_share
      sorted_eff.getD (max (pyInt (still_missing * n)) 1).toNat 0
    else node
  else if priority = 2 then
    let med_pr_share := s.priority_counter.getD 1 0 / s.capacities.sum
    if high_pr_share < FILE_FREQUENCY 0 ∨ med_pr_share < FILE_FREQUENCY 1 then
      let still_missing := (FILE_FREQUENCY 0 - high_pr_share) + (FILE_FREQUENCY 1 - med_pr_share)
      sorted_eff.getD (max (pyInt (still_missing * n)) 1).toNat 0
    else node
  else node

/-- The in-memory effect of `persist_metadata` (api.py lines 104-114): the
snapshot is written under the reserved "PSL" key, so the metadata dict gains
that key; the on-disk write is outside the model. -/
def persist_metadata (s : PSL) : PSL := { s with hasPSL := true }

/-- Outcome of `placement_node_id`: either a chosen node or a failed
`assert` (which in Python raises AssertionError out of the method, leaving
all mutations so far in place). -/
inductive PRes where
  | assertFail
  | ok (node : Nat)
deriving DecidableEq

/-- `placement_node_id(priority, persist)` (api.py lines 191-207).  A single
node short-circuits to node 0 with no mutation at all.  Otherwise: rank,
choose, decrement `available[node]` by `block_size`, `assert available[node]
> 0`, recompute effectiveness for that node, `assert effective[node] < 1.0`,
persist (which puts the "PSL" key into the metadata dict), return the node. -/
def placement_node_id (s : PSL) (priority : Nat) (persist : Bool) : PSL × PRes :=
  if s.num = 1 then (s, .ok 0) else
  let sorted_eff := sorted_eff_list s.effective
  let node := get_effective_node_id s sorted_eff priority
  let s1 : PSL := { s with available := s.available.set node (s.available.getD node 0 - s.block_size) }
  if s1.available.getD node 0 ≤ 0 then (s1, .assertFail)
  else
    let s2 := effectiveness_for_node s1 node
    if s2.effective.getD node 0 < 1 then
      (if persist then persist_metadata s2 else s2, .ok node)
    else (s2, .assertFail)

/-- Outcome of `create_file`: Python returns `None` for an existing filename
(`retNone`), raises IndexError on an out-of-range explicit node id
(`indexError`), propagates a failed placement assertion (`assertFail`), or
returns normally having recorded the file (`ok node_id`). -/
inductive CRes where
  | retNone
  | assertFail
  | indexError
  | ok (node_id : Nat)
deriving DecidableEq

/-- The commit tail of `create_file` (api.py lines 131-144): increment
`priority_counter[priority]` (Python raises IndexError when `priority` is out
of range of the counter list), record the metadata entry, persist if asked. -/
def createCommit (s : PSL) (filename : String) (size : ℚ) (nid priority : Nat)
    (persist : Bool) : PSL × CRes :=
  if s.priority_counter.length ≤ priority then (s, .indexError) else
  let s2 : PSL := { s with
    priority_counter := s.priority_counter.set priority (s.priority_counter.getD priority 0 + 1),
    metadata := (filename, ⟨nid, priority, size⟩) :: s.metadata }
  (if persist then persist_metadata s2 else s2, .ok nid)

/-- `create_file(filename, size, node_id, priority, persist)` (api.py lines
119-152).  The guard returns `None` when the filename is already a key of the
metadata dict; the second disjunct of the Python guard,
`self.datanodes[node_id] not in self.datanodes`, is False for every in-range
id (the element fetched from the list is in the list) and raises IndexError
for an out-of-range one, so NO explicit node is ever rejected as invalid and
NO capacity is ever charged on the explicit path.  The automatic path calls
`placement_node_id(priority)` with its default `persist=True`. -/
def create_file (s : PSL) (filename : String) (size : ℚ) (node_id : Option Nat)
    (priority : Nat) (persist : Bool) : PSL × CRes :=
  if (filename = "PSL" ∧ s.hasPSL = true) ∨ (lookupMeta s.metadata filename).isSome then
    (s, .retNone)
  else
    match node_id with
    | some nid =>
      if s.num ≤ nid then (s, .indexError)
      else createCommit s filename size nid priority persist
    | none =>
      match placement_node_id s priority true with
      | (s1, .assertFail) => (s1, .assertFail)
      | (s1, .ok nid) => createCommit s1 filename size nid priority persist

/-- Outcome of `delete_file`: `None` for a missing filename or the reserved
key, or a normal return. -/
inductive DRes where
  | retNone
  | ok
deriving DecidableEq

/-- `delete_file(filename, persist)` (api.py lines 246-259): guard, then
credit `block_size` (NOT the recorded file size) back to the entry's node,
recompute that node's effectiveness, delete the entry, persist if asked. -/
def delete_file (s : PSL) (filename : String) (persist : Bool) : PSL × DRes :=
  match lookupMeta s.metadata filename with
  | none => (s, .retNone)
  | some e =>
    if filename = "PSL" then (s, .retNone) else
    let s1 : PSL := { s with available := s.available.set e.node_id (s.available.getD e.node_id 0 + s.block_size) }
    let s2 := effectiveness_for_node s1 e.node_id
    let s3 : PSL := { s2 with metadata := removeKey s2.metadata filename }
    (if persist then persist_metadata s3 else s3, .ok)

/-- Outcome of `placement_reassign`: a normal (no-op) return, or the
TypeError raised by `sorted(self.metadata.items(), key=lambda k, v: ...)` —
the two-parameter lambda is invoked with a single (tuple) argument, which
raises as soon as the dict is nonempty. -/
inductive RRes where
  | ok
  | typeError
deriving DecidableEq

/-- `placement_reassign()` (api.py lines 210-237): returns immediately when
`sum(available) > 0.7 * sum(capacities)`; otherwise it sorts the metadata
items with a two-parameter key lambda, which raises TypeError on the first
element when the dict is nonempty (any file, or the persisted "PSL" key);
with an entirely empty dict the sort is vacuous, the move set is empty and
the pass returns.  No branch mutates the state. -/
def placement_reassign (s : PSL) : PSL × RRes :=
  if s.available.sum > (7/10) * s.capacities.sum then (s, .ok)
  else if s.metadata = [] ∧ s.hasPSL = false then (s, .ok)
  else (s, .typeError)

/-- Number of catalog entries currently assigned to node `i`. -/
def countNode : List (String × FileEntry) → Nat → Nat
  | [], _ => 0
  | kv :: rest, i => (if kv.2.node_id = i then 1 else 0) + countNode rest i

/-- The association list has pairwise distinct keys, as a Python dict does. -/
def KeysNodup (m : List (String × FileEntry)) : Prop := (m.map Prod.fst).Nodup

/-- A freshly provisioned cluster state: at least two nodes, a positive block
size, every node fully available (`available = capacities`, all nonnegative),
arrays sized to the cluster, and an empty catalog — as produced by
`setup_system_info` on a clean system. -/
def InitOK (s : PSL) : Prop :=
  2 ≤ s.num ∧ 0 < s.block_size ∧
  s.available = s.capacities ∧
  s.capacities.length = s.num ∧ s.effective.length = s.num ∧
  s.metadata = [] ∧ (∀ c ∈ s.capacities, 0 ≤ c)

/-- States reachable from a fresh cluster by successful automatic-placement
creates and by arbitrary deletes (successful or not). -/
inductive Reach : PSL → Prop where
  | init (s : PSL) : InitOK s → Reach s
  | create (s : PSL) (f : String) (sz : ℚ) (pr : Nat) (p : Bool) (s' : PSL) (nid : Nat) :
      Reach s → create_file s f sz none pr p = (s', .ok nid) → Reach s'
  | del (s : PSL) (f : String) (p : Bool) (s' : PSL) (r : DRes) :
      Reach s → delete_file s f p = (s', r) → Reach s'

/-- The ledger invariant: array sizes are coherent and every node's
availability equals its capacity minus one block per catalog entry placed on
it, and is nonnegative. -/
def Inv (s : PSL) : Prop :=
  2 ≤ s.num ∧ 0 < s.block_size ∧
  s.available.length = s.num ∧ s.capacities.length = s.num ∧ s.effective.length = s.num ∧
  (∀ kv ∈ s.metadata, kv.2.node_id < s.num) ∧
  (∀ i, i < s.num →
      s.available.getD i 0 + s.block_size * (countNode s.metadata i : ℚ) = s.capacities.getD i 0 ∧
      0 ≤ s.available.getD i 0)

/-- Concrete two-node cluster: block size 10, capacities 100, fully free,
latencies 90 and 30, empty catalog. -/
def sA : PSL :=
  { num := 2
    block_size := 10
    capacities := [100, 100]
    available := [100, 100]
    latencies := [90, 30]
    effective := [0, 0]
    priority_counter := [0, 0, 0]
    metadata := []
    hasPSL := false }

/-- State whose effectiveness scores are distinct, to exhibit the ranking
direction. -/
def sC1 : PSL := { sA with effective := [1/5, 2/5] }

/-- State in which the best-ranked node (node 0, the higher score under the
descending sort) holds exactly one block of availability. -/
def sC4 : PSL := { sA with effective := [1/2, 1/4], available := [10, 50] }

/-- State whose node 0 is exhausted. -/
def sC5 : PSL := { sA with available := [0, 100] }

/-- First state for the effectiveness purity counterexample. -/
def sC7a : PSL := { sA with latencies := [30, 90] }

/-- Second state for the effectiveness purity counterexample: it agrees with
`sC7a` on node 0's availability, capacity and latency and on the whole
latency list, and differs only in the capacity of node 1 (the maximal-latency
node). -/
def sC7b : PSL := { sA with latencies := [30, 90], capacities := [100, 200] }

/-- Third state for the effectiveness purity witness: it agrees with `sC7a`
on every claim input and on the maximal-latency node's capacity, differing
only in node 1's availability. -/
def sC7c : PSL := { sC7a with available := [100, 77] }

/-- State holding one catalog entry of recorded size 1 (much smaller than the
block size 10). -/
def sC8 : PSL := { sA with available := [50, 50], metadata := [("f", ⟨0, 2, 1⟩)] }

/-- State at cluster-wide free fraction 1/2 with a nonempty catalog. -/
def sC9 : PSL := { sA with available := [100, 0], metadata := [("f", ⟨0, 2, 10⟩)] }

/-- Single-node cluster whose only node is completely exhausted. -/
def sC10 : PSL :=
  { num := 1
    block_size := 10
    capacities := [100]
    available := [0]
    latencies := [30]
    effective := [0]
    priority_counter := [0, 0, 0]
    metadata := []
    hasPSL := false }

/-! Helper lemmas about list access, the index sort, and Python truncation. -/

theorem getD_set_self {α : Type} (l : List α) (n : Nat) (v d : α) :
    (l.set n v).getD n d = if n < l.length then v else d := by
  induction l generalizing n with
  | nil => simp
  | cons x xs ih =>
    cases n with
    | zero => simp
    | succ m => simpa using ih m

theorem getD_set_ne {α : Type} (l : List α) (v d : α) {n m : Nat} (h : n ≠ m) :
    (l.set n v).getD m d = l.getD m d := by
  induction l generalizing n m with
  | nil => simp
  | cons x xs ih =>
    cases n with
    | zero =>
      cases m with
      | zero => exact absurd rfl h
      | succ k => simp
    | succ n1 =>
      cases m with
      | zero => simp
      | succ k => simpa using ih (fun hh => h (by omega))

theorem set_getD_self {α : Type} (l : List α) (n : Nat) (d : α) :
    l.set n (l.getD n d) = l := by
  induction l generalizing n with
  | nil => simp
  | cons x xs ih =>
    cases n with
    | zero => simp
    | succ m => rw [List.getD_cons_succ, List.set_cons_succ, ih]

theorem getD_mem {α : Type} (l : List α) (n : Nat) (d : α) (h : n < l.length) :
    l.getD n d ∈ l := by
  rw [List.getD_eq_getElem l d h]
  exact List.getElem_mem h

theorem mem_insertDesc (eff : List ℚ) (i x : Nat) (l : List Nat) :
    x ∈ insertDesc eff i l → x = i ∨ x ∈ l := by
  induction l with
  | nil =>
    intro hx
    simp [insertDesc] at hx
    exact Or.inl hx
  | cons j js ih =>
    intro hx
    simp only [insertDesc] at hx
    split at hx
    · exact List.mem_cons.mp hx
    · rcases List.mem_cons.mp hx with h1 | h2
      · exact Or.inr (List.mem_cons.mpr (Or.inl h1))
      · rcases ih h2 with h3 | h4
        · exact Or.inl h3
        · exact Or.inr (List.mem_cons.mpr (Or.inr h4))

theorem mem_sortDescIdx (eff : List ℚ) (l : List Nat) (x : Nat) :
    x ∈ sortDescIdx eff l → x ∈ l := by
  induction l with
  | nil => simp [sortDescIdx]
  | cons i is ih =>
    intro hx
    rcases mem_insertDesc eff i x _ hx with h1 | h2
    · exact List.mem_cons.mpr (Or.inl h1)
    · exact List.mem_cons.mpr (Or.inr (ih h2))

theorem sorted_eff_mem (eff : List ℚ) (x : Nat) (hx : x ∈ sorted_eff_list eff) :
    x < eff.length := by
  have h := mem_sortDescIdx eff (List.range eff.length) x hx
  simpa [List.mem_range] using h

theorem getD_nat_lt (l : List Nat) (k n : Nat) (hl : ∀ x ∈ l, x < n) (hn : 0 < n) :
    l.getD k 0 < n := by
  by_cases h : k < l.length
  · exact hl _ (getD_mem l k 0 h)
  · rw [List.getD_eq_default l 0 (Nat.le_of_not_lt h)]
    exact hn

theorem get_effective_node_id_lt (s : PSL) (ranked : List Nat) (p n : Nat)
    (hr : ∀ x ∈ ranked, x < n) (hn : 0 < n) :
    get_effective_node_id s ranked p < n := by
  unfold get_effective_node_id
  dsimp only
  split_ifs <;> exact getD_nat_lt ranked _ n hr hn

theorem max_pyInt_one (q : ℚ) : max (pyInt q) 1 = max ⌊q⌋ 1 := by
  unfold pyInt
  split
  · next h =>
    have hc : ⌈q⌉ ≤ 0 := by
      rw [Int.ceil_le]
      push_cast
      exact h.le
    have hf : ⌊q⌋ ≤ ⌈q⌉ := Int.floor_le_ceil q
    omega
  · rfl

theorem persistIf_available (s : PSL) (b : Bool) :
    (if b = true then persist_metadata s else s).available = s.available := by
  cases b <;> rfl

theorem persistIf_effective (s : PSL) (b : Bool) :
    (if b = true then persist_metadata s else s).effective = s.effective := by
  cases b <;> rfl

theorem persistIf_metadata (s : PSL) (b : Bool) :
    (if b = true then persist_metadata s else s).metadata = s.metadata := by
  cases b <;> rfl

theorem persistIf_priority_counter (s : PSL) (b : Bool) :
    (if b = true then persist_metadata s else s).priority_counter = s.priority_counter := by
  cases b <;> rfl

theorem persistIf_capacities (s : PSL) (b : Bool) :
    (if b = true then persist_metadata s else s).capacities = s.capacities := by
  cases b <;> rfl

theorem persistIf_num (s : PSL) (b : Bool) :
    (if b = true then persist_metadata s else s).num = s.num := by
  cases b <;> rfl

theorem persistIf_block_size (s : PSL) (b : Bool) :
    (if b = true then persist_metadata s else s).block_size = s.block_size := by
  cases b <;> rfl

theorem persistIf_latencies (s : PSL) (b : Bool) :
    (if b = true then persist_metadata s else s).latencies = s.latencies := by
  cases b <;> rfl

theorem lookupMeta_mem (m : List (String × FileEntry)) (f : String) (e : FileEntry)
    (h : lookupMeta m f = some e) : (f, e) ∈ m := by
  induction m with
  | nil => simp [lookupMeta] at h
  | cons kv rest ih =>
    obtain ⟨k, v⟩ := kv
    simp only [lookupMeta] at h
    split at h
    · next hk =>
      injection h with h2
      subst h2
      subst hk
      exact List.mem_cons_self _ _
    · next hk => exact List.mem_cons.mpr (Or.inr (ih h))

theorem countNode_removeKey (m : List (String × FileEntry)) (f : String) (e : FileEntry) (i : Nat)
    (h : lookupMeta m f = some e) :
    countNode (removeKey m f) i + (if e.node_id = i then 1 else 0) = countNode m i := by
  induction m with
  | nil => simp [lookupMeta] at h
  | cons kv rest ih =>
    simp only [lookupMeta] at h
    split at h
    · next hk =>
      injection h with h2
      subst h2
      simp only [removeKey, if_pos hk, countNode]
      exact Nat.add_comm _ _
    · next hk =>
      simp only [removeKey, if_neg hk, countNode]
      rw [← ih h]
      ring

theorem mem_removeKey (m : List (String × FileEntry)) (f : String) (x : String × FileEntry) :
    x ∈ removeKey m f → x ∈ m := by
  induction m with
  | nil => simp [removeKey]
  | cons kv rest ih =>
    simp only [removeKey]
    split
    · exact fun hx => List.mem_cons.mpr (Or.inr hx)
    · intro hx
      rcases List.mem_cons.mp hx with h1 | h2
      · exact List.mem_cons.mpr (Or.inl h1)
      · exact List.mem_cons.mpr (Or.inr (ih h2))

theorem lookupMeta_eq_none (m : List (String × FileEntry)) (f : String)
    (h : f ∉ m.map Prod.fst) : lookupMeta m f = none := by
  induction m with
  | nil => rfl
  | cons kv rest ih =>
    simp only [List.map_cons, List.mem_cons] at h
    push_neg at h
    simp only [lookupMeta]
    rw [if_neg (fun hh => h.1 hh.symm)]
    exact ih h.2

theorem lookupMeta_removeKey_self (m : List (String × FileEntry)) (f : String)
    (hnd : KeysNodup m) : lookupMeta (removeKey m f) f = none := by
  induction m with
  | nil => rfl
  | cons kv rest ih =>
    simp only [KeysNodup, List.map_cons, List.nodup_cons] at hnd
    obtain ⟨hk, hrest⟩ := hnd
    simp only [removeKey]
    split
    · next heq => exact lookupMeta_eq_none rest f (by rw [← heq]; exact hk)
    · next hne =>
      simp only [lookupMeta]
      rw [if_neg hne]
      exact ih hrest

theorem placement_ok_spec (s : PSL) (p : Nat) (persist : Bool) (s1 : PSL) (node : Nat)
    (h1 : ¬ s.num = 1)
    (h : placement_node_id s p persist = (s1, .ok node)) :
    node = get_effective_node_id s (sorted_eff_list s.effective) p ∧
    node < s.available.length ∧
    0 < s.available.getD node 0 - s.block_size ∧
    s1.available = s.available.set node (s.available.getD node 0 - s.block_size) ∧
    s1.num = s.num ∧ s1.block_size = s.block_size ∧ s1.capacities = s.capacities ∧
    s1.metadata = s.metadata ∧ s1.priority_counter = s.priority_counter ∧
    s1.effective.length = s.effective.length := by
  unfold placement_node_id at h
  rw [if_neg h1] at h
  dsimp only at h
  split at h
  · simp at h
  · next hc =>
    split at h
    · next he =>
      rw [Prod.mk.injEq] at h
      obtain ⟨hs1, hok⟩ := h
      injection hok with hnd
      subst hnd
      have h0 : 0 < (s.available.set (get_effective_node_id s (sorted_eff_list s.effective) p)
          (s.available.getD (get_effective_node_id s (sorted_eff_list s.effective) p) 0
            - s.block_size)).getD (get_effective_node_id s (sorted_eff_list s.effective) p) 0 :=
        not_le.mp hc
      rw [getD_set_self] at h0
      have hkey : get_effective_node_id s (sorted_eff_list s.effective) p < s.available.length ∧
          0 < s.available.getD (get_effective_node_id s (sorted_eff_list s.effective) p) 0
            - s.block_size := by
        split at h0
        · next hl => exact ⟨hl, h0⟩
        · exact absurd h0 (lt_irrefl 0)
      refine ⟨rfl, hkey.1, hkey.2, ?_, ?_, ?_, ?_, ?_, ?_, ?_⟩ <;> rw [← hs1]
      · rw [persistIf_available]; rfl
      · rw [persistIf_num]; rfl
      · rw [persistIf_block_size]; rfl
      · rw [persistIf_capacities]; rfl
      · rw [persistIf_metadata]; rfl
      · rw [persistIf_priority_counter]; rfl
      · rw [persistIf_effective]
        simp only [effectiveness_for_node]
        exact List.length_set _ _ _
    · simp at h

theorem create_auto_ok_spec (s : PSL) (f : String) (sz : ℚ) (pr : Nat) (persist : Bool)
    (s2 : PSL) (nid : Nat)
    (h2 : 2 ≤ s.num)
    (h : create_file s f sz none pr persist = (s2, .ok nid)) :
    nid = get_effective_node_id s (sorted_eff_list s.effective) pr ∧
    nid < s.available.length ∧
    0 < s.available.getD nid 0 - s.block_size ∧
    s2.available = s.available.set nid (s.available.getD nid 0 - s.block_size) ∧
    s2.num = s.num ∧
    s2.block_size = s.block_size ∧
    s2.capacities = s.capacities ∧
    s2.metadata = (f, ⟨nid, pr, sz⟩) :: s.metadata ∧
    s2.effective.length = s.effective.length := by
  have h1 : ¬ s.num = 1 := by omega
  unfold create_file at h
  split at h
  · simp at h
  · rcases hpl : placement_node_id s pr true with ⟨st, r⟩
    rw [hpl] at h
    cases r with
    | assertFail => simp at h
    | ok nd =>
      dsimp only at h
      unfold createCommit at h
      split at h
      · simp at h
      dsimp only at h
      rw [Prod.mk.injEq] at h
      obtain ⟨hs2, hok⟩ := h
      injection hok with hn
      subst hn
      obtain ⟨ha, hb, hc2, hd, hnum, hbs, hcap, hmet, hpc, heff⟩ :=
        placement_ok_spec s pr true st nd h1 hpl
      refine ⟨ha, hb, hc2, ?_, ?_, ?_, ?_, ?_, ?_⟩ <;> rw [← hs2]
      · rw [persistIf_available]; exact hd
      · rw [persistIf_num]; exact hnum
      · rw [persistIf_block_size]; exact hbs
      · rw [persistIf_capacities]; exact hcap
      · rw [persistIf_metadata]
        dsimp only
        rw [hmet]
      · rw [persistIf_effective]
        dsimp only
        exact heff

theorem inv_init (s : PSL) (h : InitOK s) : Inv s := by
  obtain ⟨h2, hbs, hav, hcl, hel, hmet, hnn⟩ := h
  refine ⟨h2, hbs, ?_, hcl, hel, ?_, ?_⟩
  · rw [hav]; exact hcl
  · rw [hmet]; intro kv hkv; simp at hkv
  · intro i hi
    rw [hmet]
    constructor
    · simp [countNode, hav]
    · rw [hav]
      exact hnn _ (getD_mem _ _ _ (by rw [hcl]; exact hi))

theorem inv_create (s s2 : PSL) (f : String) (sz : ℚ) (pr : Nat) (p : Bool) (nid : Nat)
    (hInv : Inv s)
    (h : create_file s f sz none pr p = (s2, .ok nid)) : Inv s2 := by
  obtain ⟨h2, hbs, hal, hcl, hel, hmem, hacc⟩ := hInv
  obtain ⟨ha, hb, hc, hd, hnum, hbsz, hcap, hmet, heff⟩ :=
    create_auto_ok_spec s f sz pr p s2 nid h2 h
  have hnidnum : nid < s.num := by rw [← hal]; exact hb
  refine ⟨?_, ?_, ?_, ?_, ?_, ?_, ?_⟩
  · rw [hnum]; exact h2
  · rw [hbsz]; exact hbs
  · rw [hnum, hd, List.length_set]; exact hal
  · rw [hnum, hcap]; exact hcl
  · rw [hnum, heff]; exact hel
  · rw [hnum, hmet]
    intro kv hkv
    rcases List.mem_cons.mp hkv with h1 | h1
    · rw [h1]; exact hnidnum
    · exact hmem kv h1
  · intro i hi
    rw [hnum] at hi
    constructor
    · rw [hd, hmet, hbsz, hcap]
      simp only [countNode]
      by_cases hni : nid = i
      · subst hni
        rw [getD_set_self, if_pos hb, if_pos rfl]
        have hval := (hacc nid hnidnum).1
        have hdist : s.block_size * ((1 : ℚ) + (countNode s.metadata nid : ℚ))
            = s.block_size + s.block_size * (countNode s.metadata nid : ℚ) := by ring
        push_cast
        linarith
      · rw [getD_set_ne _ _ _ hni]
        have hval := (hacc i hi).1
        have hne2 : ¬ (FileEntry.node_id ⟨nid, pr, sz⟩ = i) := hni
        rw [if_neg hne2]
        push_cast
        push_cast at hval
        linarith
    · rw [hd]
      by_cases hni : nid = i
      · subst hni
        rw [getD_set_self, if_pos hb]
        exact le_of_lt hc
      · rw [getD_set_ne _ _ _ hni]
        exact (hacc i hi).2

theorem inv_delete (s s2 : PSL) (f : String) (p : Bool) (r : DRes)
    (hInv : Inv s) (h : delete_file s f p = (s2, r)) : Inv s2 := by
  obtain ⟨h2, hbs, hal, hcl, hel, hmem, hacc⟩ := hInv
  unfold delete_file at h
  rcases hl : lookupMeta s.metadata f with _ | e
  · rw [hl] at h
    dsimp only at h
    rw [Prod.mk.injEq] at h
    obtain ⟨hs, _⟩ := h
    subst hs
    exact ⟨h2, hbs, hal, hcl, hel, hmem, hacc⟩
  · rw [hl] at h
    dsimp only at h
    split at h
    · rw [Prod.mk.injEq] at h
      obtain ⟨hs, _⟩ := h
      subst hs
      exact ⟨h2, hbs, hal, hcl, hel, hmem, hacc⟩
    · rw [Prod.mk.injEq] at h
      obtain ⟨hs, _⟩ := h
      have hmemE : (f, e) ∈ s.metadata := lookupMeta_mem _ _ _ hl
      have hnid : e.node_id < s.num := hmem _ hmemE
      have hnidA : e.node_id < s.available.length := by rw [hal]; exact hnid
      subst hs
      refine ⟨?_, ?_, ?_, ?_, ?_, ?_, ?_⟩
      · rw [persistIf_num]; exact h2
      · rw [persistIf_block_size]; exact hbs
      · rw [persistIf_num, persistIf_available]
        simp only [effectiveness_for_node]
        rw [List.length_set]
        exact hal
      · rw [persistIf_num, persistIf_capacities]; exact hcl
      · rw [persistIf_num, persistIf_effective]
        simp only [effectiveness_for_node]
        rw [List.length_set]
        exact hel
      · rw [persistIf_num, persistIf_metadata]
        intro kv hkv
        simp only [effectiveness_for_node] at hkv
        exact hmem kv (mem_removeKey _ _ _ hkv)
      · intro i hi
        rw [persistIf_num] at hi
        rw [persistIf_available, persistIf_block_size, persistIf_metadata, persistIf_capacities]
        simp only [effectiveness_for_node]
        have hcr := countNode_removeKey s.metadata f e i hl
        constructor
        · by_cases hni : e.node_id = i
          · subst hni
            rw [getD_set_self, if_pos hnidA]
            rw [if_pos rfl] at hcr
            have hval := (hacc e.node_id hnid).1
            have hc2 : (countNode s.metadata e.node_id : ℚ)
                = (countNode (removeKey s.metadata f) e.node_id : ℚ) + 1 := by
              exact_mod_cast hcr.symm
            rw [hc2] at hval
            have hdist : s.block_size * ((countNode (removeKey s.metadata f) e.node_id : ℚ) + 1)
                = s.block_size * (countNode (removeKey s.metadata f) e.node_id : ℚ)
                  + s.block_size := by ring
            linarith
          · rw [getD_set_ne _ _ _ hni]
            rw [if_neg hni, Nat.add_zero] at hcr
            rw [hcr]
            exact (hacc i hi).1
        · by_cases hni : e.node_id = i
          · subst hni
            rw [getD_set_self, if_pos hnidA]
            have := (hacc e.node_id hnid).2
            linarith
          · rw [getD_set_ne _ _ _ hni]
            exact (hacc i hi).2

theorem reach_inv (s : PSL) (h : Reach s) : Inv s := by
  induction h with
  | init s hs => exact inv_init s hs
  | create s f sz pr p s' nid hr hc ih => exact inv_create s s' f sz pr p nid ih hc
  | del s f p s' r hr hc ih => exact inv_delete s s' f p r ih hc

/-! Claim theorems. -/

/-- C1: the claim states that `sorted_eff` orders node indices ascending by
effective score, so that `sorted_eff[0]` has the lowest effective value and a
priority-0 placement selects it.  The code sorts `enumerate(self.effective)`
with `reverse=True`: on `effective = [1/5, 2/5]` the ranking is `[1, 0]` and
the priority-0 selection is node 1 — the node with the HIGHEST effective
score, contradicting the code's own comment that a greater score is worse. -/
theorem C1_ranking_descending_eval :
    sorted_eff_list sC1.effective = [1, 0] ∧
    get_effective_node_id sC1 (sorted_eff_list sC1.effective) 0 = 1 ∧
    sC1.effective.getD 0 0 < sC1.effective.getD 1 0 := by
  norm_num [sC1, sA, sorted_eff_list, sortDescIdx, insertDesc, List.range_succ,
    get_effective_node_id]

/-- C2 amended: starting from a freshly provisioned cluster with at least two
nodes, along any sequence of SUCCESSFUL automatic-placement creates and
arbitrary deletes, every node satisfies `0 <= available[i] <= capacities[i]`.
(The original claim, which also admits explicit-node creates and single-node
clusters, is refuted by the counterexample below.) -/
theorem C2_available_bounds (s : PSL) (h : Reach s) :
    ∀ i, i < s.num → 0 ≤ s.available.getD i 0 ∧ s.available.getD i 0 ≤ s.capacities.getD i 0 := by
  obtain ⟨h2, hbs, hal, hcl, hel, hmem, hacc⟩ := reach_inv s h
  intro i hi
  obtain ⟨heq, hpos⟩ := hacc i hi
  refine ⟨hpos, ?_⟩
  have hnn : 0 ≤ s.block_size * (countNode s.metadata i : ℚ) :=
    mul_nonneg hbs.le (Nat.cast_nonneg _)
  linarith

/-- C2 witness: the bounds at the freshly provisioned two-node state. -/
theorem C2_available_bounds_witness :
    0 ≤ sA.available.getD 0 0 ∧ sA.available.getD 0 0 ≤ sA.capacities.getD 0 0 :=
  C2_available_bounds sA (Reach.init sA (by norm_num [InitOK, sA])) 0 (by decide)

/-- C2 counterexample: from the fresh state `sA`, a create with an explicit
node (which bills no capacity) followed by a delete of the same file (which
credits one block) leaves `available[0] = 110 > capacities[0] = 100`,
violating `available <= capacity`. -/
theorem C2_capacity_overflow_cex :
    (delete_file (create_file sA "f" 10 (some 0) 2 false).1 "f" false).1.available.getD 0 0 = 110 ∧
    (delete_file (create_file sA "f" 10 (some 0) 2 false).1 "f" false).1.capacities.getD 0 0 = 100 ∧
    ¬ ((delete_file (create_file sA "f" 10 (some 0) 2 false).1 "f" false).1.available.getD 0 0
        ≤ (delete_file (create_file sA "f" 10 (some 0) 2 false).1 "f" false).1.capacities.getD 0 0) := by
  have hne : ("f" : String) ≠ "PSL" := by decide
  norm_num [create_file, createCommit, delete_file, lookupMeta, removeKey,
    effectiveness_for_node, sA, hne]

/-- C3 counterexample: in the fresh state the cluster free fraction is 1 (not
below 0.10) and the high-priority share is 0 (below 0.01), so by the claim a
priority-1 request must select the displaced node `ranked[max(floor(missing*N),1)]
= ranked[1] = 1`; the code's bypass condition is `free fraction > 0.10`, so it
selects `ranked[0] = 0` instead. -/
theorem C3_bypass_direction_cex :
    ¬ (sA.available.sum / sA.capacities.sum < 1/10) ∧
    sA.priority_counter.getD 0 0 / sA.capacities.sum < 1/100 ∧
    get_effective_node_id sA [0, 1] 1 = 0 ∧
    ([0, 1] : List Nat).getD (max ⌊((1/100 : ℚ) - sA.priority_counter.getD 0 0 / sA.capacities.sum)
        * (([0, 1] : List Nat).length : ℚ)⌋ 1).toNat 0 = 1 := by
  norm_num [get_effective_node_id, sA, List.getD]

/-- C4 counterexample: in `sC4` the selected node is node 0 with exactly one
block of availability; the reservation decrements it to 0, the defensive
`assert available > 0` fires (an AssertionError, not a returned NoCapacity),
and the decrement is NOT rolled back: `available` remains `[0, 50]`. -/
theorem C4_no_rollback_cex :
    (placement_node_id sC4 0 true).2 = .assertFail ∧
    (placement_node_id sC4 0 true).1.available = [0, 50] ∧
    sC4.available = [10, 50] ∧
    (placement_node_id sC4 0 true).1.effective = sC4.effective ∧
    (placement_node_id sC4 0 true).1.priority_counter = sC4.priority_counter := by
  norm_num [placement_node_id, sorted_eff_list, sortDescIdx, insertDesc, List.range_succ,
    get_effective_node_id, sC4, sA]

/-- C5 counterexample: node 0 of `sC5` is exhausted (`available == 0`), yet a
create explicitly targeting node 0 succeeds (no NoCapacity) and bills
nothing: `available` is unchanged. -/
theorem C5_exhausted_node_cex :
    sC5.available.getD 0 0 = 0 ∧
    (create_file sC5 "f" 10 (some 0) 2 false).2 = .ok 0 ∧
    (create_file sC5 "f" 10 (some 0) 2 false).1.available = sC5.available := by
  norm_num [create_file, createCommit, lookupMeta, sC5, sA]

/-- C5 amended: a create given an explicit in-range node id bypasses the
placement policy AND the capacity ledger: it succeeds for any fresh filename
regardless of the node's availability, and neither `available` nor
`effective` changes (no billing, no NoCapacity ever). -/
theorem C5_explicit_no_billing (s : PSL) (f : String) (sz : ℚ) (nid pr : Nat) (persist : Bool)
    (hnid : nid < s.num)
    (hpr : pr < s.priority_counter.length)
    (habs : ¬ ((f = "PSL" ∧ s.hasPSL = true) ∨ (lookupMeta s.metadata f).isSome = true)) :
    (create_file s f sz (some nid) pr persist).2 = .ok nid ∧
    (create_file s f sz (some nid) pr persist).1.available = s.available ∧
    (create_file s f sz (some nid) pr persist).1.effective = s.effective := by
  unfold create_file
  rw [if_neg habs]
  dsimp only
  rw [if_neg (Nat.not_le.mpr hnid)]
  unfold createCommit
  rw [if_neg (Nat.not_le.mpr hpr)]
  cases persist <;> simp [persist_metadata]

/-- C5 witness: the amended statement at the concrete exhausted-node state. -/
theorem C5_explicit_no_billing_witness :
    (create_file sC5 "g" 10 (some 0) 2 false).2 = .ok 0 ∧
    (create_file sC5 "g" 10 (some 0) 2 false).1.available = sC5.available ∧
    (create_file sC5 "g" 10 (some 0) 2 false).1.effective = sC5.effective :=
  C5_explicit_no_billing sC5 "g" 10 0 2 false (by decide) (by decide) (by decide)

/-- C6 counterexample: a successful create with an explicit node followed by a
delete of the same file does NOT restore the node's availability: the create
bills nothing while the delete credits a block, so `available[0]` goes from
100 to 110. -/
theorem C6_explicit_roundtrip_cex :
    (create_file sA "f" 10 (some 0) 2 false).2 = .ok 0 ∧
    (delete_file (create_file sA "f" 10 (some 0) 2 false).1 "f" false).2 = .ok ∧
    (delete_file (create_file sA "f" 10 (some 0) 2 false).1 "f" false).1.available.getD 0 0
      ≠ sA.available.getD 0 0 := by
  have hne : ("f" : String) ≠ "PSL" := by decide
  norm_num [create_file, createCommit, delete_file, lookupMeta, removeKey,
    effectiveness_for_node, sA, hne]

/-- C6 amended: on a cluster with at least two nodes, a SUCCESSFUL
automatic-placement create of a fresh non-reserved filename followed by a
delete of the same file restores the whole availability array — in
particular the chosen node's `available` — to exactly its pre-create value
(the create charges one block via the reservation and the delete credits one
block back). -/
theorem C6_create_delete_restores (s : PSL) (f : String) (sz : ℚ) (pr : Nat) (p1 p2 : Bool)
    (s2 : PSL) (nid : Nat)
    (h2 : 2 ≤ s.num)
    (hP : ¬ f = "PSL")
    (h : create_file s f sz none pr p1 = (s2, .ok nid)) :
    (delete_file s2 f p2).1.available = s.available := by
  obtain ⟨ha, hb, hc, hd, hnum, hbs, hcap, hmet, heff⟩ :=
    create_auto_ok_spec s f sz pr p1 s2 nid h2 h
  have hl : lookupMeta s2.metadata f = some ⟨nid, pr, sz⟩ := by
    rw [hmet]
    simp [lookupMeta]
  unfold delete_file
  rw [hl]
  dsimp only
  rw [if_neg hP, persistIf_available]
  simp only [effectiveness_for_node]
  have hav : s2.available.getD nid 0 = s.available.getD nid 0 - s.block_size := by
    rw [hd, getD_set_self, if_pos hb]
  rw [hav, hbs, hd, List.set_set, sub_add_cancel, set_getD_self]

/-- C6 witness: an automatic create of "f" on the fresh two-node state places
one block on node 0; deleting "f" restores `available` exactly. -/
theorem C6_create_delete_restores_witness :
    (delete_file (create_file sA "f" 10 none 2 true).1 "f" false).1.available = sA.available := by
  have hx : (create_file sA "f" 10 none 2 true).2 = CRes.ok 0 := by
    norm_num [create_file, createCommit, placement_node_id, sorted_eff_list, sortDescIdx,
      insertDesc, List.range_succ, get_effective_node_id, effectiveness_for_node, effFor,
      listMax, idxOfMax, argmaxAux, lookupMeta, persist_metadata, sA]
  exact C6_create_delete_restores sA "f" 10 2 true false _ 0 (by decide) (by decide)
    (by rw [← hx])

/-- C7 counterexample: `sC7a` and `sC7b` agree on node 0's availability,
capacity and latency and on the full latency list (the claim's input set),
but differ in the capacity of node 1 — the maximal-latency node, which enters
`worst_latency` — and the recomputed effectiveness of node 0 differs. -/
theorem C7_inputs_cex :
    sC7a.latencies = sC7b.latencies ∧
    sC7a.available.getD 0 0 = sC7b.available.getD 0 0 ∧
    sC7a.capacities.getD 0 0 = sC7b.capacities.getD 0 0 ∧
    sC7a.latencies.getD 0 0 = sC7b.latencies.getD 0 0 ∧
    effFor sC7a 0 ≠ effFor sC7b 0 := by
  norm_num [effFor, listMax, idxOfMax, argmaxAux, sC7a, sC7b, sA, List.getD]

/-- C7 amended: effectiveness recomputation for node `i` is a pure function of
`(available[i], capacity[i], latency[i], the cluster latencies, the capacity
of the first maximal-latency node, block_size)`: two states agreeing on those
inputs yield the same recomputed `effective[i]`. -/
theorem C7_effectiveness_pure (s1 s2 : PSL) (i : Nat)
    (hlat : s1.latencies = s2.latencies)
    (hbs : s1.block_size = s2.block_size)
    (hav : s1.available.getD i 0 = s2.available.getD i 0)
    (hcap : s1.capacities.getD i 0 = s2.capacities.getD i 0)
    (hworst : s1.capacities.getD (idxOfMax s1.latencies) 0
      = s2.capacities.getD (idxOfMax s2.latencies) 0) :
    effFor s1 i = effFor s2 i := by
  have hworst2 : s1.capacities.getD (idxOfMax s2.latencies) 0
      = s2.capacities.getD (idxOfMax s2.latencies) 0 := hlat ▸ hworst
  unfold effFor
  rw [hlat, hbs, hav, hcap, hworst2]

/-- C7 witness: two states differing only in node 1's availability (which is
outside the input set) get identical recomputed effectiveness for node 0. -/
theorem C7_effectiveness_pure_witness : effFor sC7a 0 = effFor sC7c 0 :=
  C7_effectiveness_pure sC7a sC7c 0 rfl rfl rfl rfl rfl

/-- C9 amended: the rebalancing pass never mutates any state (ledger, catalog
or counters), and it returns cleanly exactly when either the guard holds
(cluster free sum above 70 percent of capacity, i.e. utilization below 30
percent) or the metadata dict is entirely empty (empty move set); in every
other case the two-parameter sort key lambda raises TypeError. -/
theorem C9_reassign_guard (s : PSL) :
    (placement_reassign s).1 = s ∧
    ((placement_reassign s).2 = .ok ↔
      (s.available.sum > (7/10) * s.capacities.sum ∨ (s.metadata = [] ∧ s.hasPSL = false))) := by
  unfold placement_reassign
  split_ifs with h1 h2
  · simp [h1]
  · simp [h1, h2]
  · simp [h1, h2]

/-- C9 counterexample: at cluster utilization 50 percent (free fraction 1/2,
NOT below the claim's 30-percent-free threshold) with a nonempty catalog, the
pass does run past its guard and raises TypeError instead of returning as a
no-op. -/
theorem C9_threshold_cex :
    sC9.available.sum = (1/2) * sC9.capacities.sum ∧
    ¬ (sC9.available.sum < (3/10) * sC9.capacities.sum) ∧
    (placement_reassign sC9).2 = .typeError := by
  norm_num [placement_reassign, sC9, sA]

/-- C10: on a single-node cluster, `placement_node_id` returns node 0 before
touching the ledger, so an automatic-placement create succeeds, decrements
nothing and recomputes nothing — even when the node is full. -/
theorem C10_single_node_create (s : PSL) (f : String) (sz : ℚ) (pr : Nat) (persist : Bool)
    (h1 : s.num = 1)
    (hpr : pr < s.priority_counter.length)
    (habs : ¬ ((f = "PSL" ∧ s.hasPSL = true) ∨ (lookupMeta s.metadata f).isSome = true)) :
    (create_file s f sz none pr persist).2 = .ok 0 ∧
    (create_file s f sz none pr persist).1.available = s.available ∧
    (create_file s f sz none pr persist).1.effective = s.effective := by
  unfold create_file placement_node_id
  rw [if_neg habs, if_pos h1]
  unfold createCommit
  dsimp only
  rw [if_neg (Nat.not_le.mpr hpr)]
  cases persist <;> simp [persist_metadata]

/-- C3 amended: the tiered selection, with the bypass condition inverted
relative to the claim: `ranked[0]` is selected when `priority == 0` OR the
cluster free fraction is ABOVE 0.10; only otherwise does the displacement
apply — priority 1 with `high_share < 0.01` picks
`ranked[max(floor(missing*N), 1)]` with `missing = 0.01 - high_share`, and
priority 2 with either tier under target picks the same index with `missing`
summing both shortfalls; with shares at target, `ranked[0]`. -/
theorem C3_tiered_selection (s : PSL) (ranked : List Nat) (p : Nat)
    (hC : 0 < s.capacities.sum) :
    ((p = 0 ∨ s.available.sum / s.capacities.sum > 1/10) →
      get_effective_node_id s ranked p = ranked.getD 0 0) ∧
    (p = 1 → ¬ (s.available.sum / s.capacities.sum > 1/10) →
      s.priority_counter.getD 0 0 / s.capacities.sum < 1/100 →
      get_effective_node_id s ranked p
        = ranked.getD (max ⌊(1/100 - s.priority_counter.getD 0 0 / s.capacities.sum)
            * (ranked.length : ℚ)⌋ 1).toNat 0) ∧
    (p = 1 → ¬ (s.available.sum / s.capacities.sum > 1/10) →
      ¬ (s.priority_counter.getD 0 0 / s.capacities.sum < 1/100) →
      get_effective_node_id s ranked p = ranked.getD 0 0) ∧
    (p = 2 → ¬ (s.available.sum / s.capacities.sum > 1/10) →
      (s.priority_counter.getD 0 0 / s.capacities.sum < 1/100 ∨
        s.priority_counter.getD 1 0 / s.capacities.sum < 9/100) →
      get_effective_node_id s ranked p
        = ranked.getD (max ⌊((1/100 - s.priority_counter.getD 0 0 / s.capacities.sum)
            + (9/100 - s.priority_counter.getD 1 0 / s.capacities.sum))
            * (ranked.length : ℚ)⌋ 1).toNat 0) ∧
    (p = 2 → ¬ (s.available.sum / s.capacities.sum > 1/10) →
      ¬ (s.priority_counter.getD 0 0 / s.capacities.sum < 1/100 ∨
          s.priority_counter.getD 1 0 / s.capacities.sum < 9/100) →
      get_effective_node_id s ranked p = ranked.getD 0 0) := by
  have hb : (s.available.sum / s.capacities.sum > 1/10) ↔
      (s.available.sum > (1/10) * s.capacities.sum) := by
    rw [gt_iff_lt, lt_div_iff₀ hC]
  unfold get_effective_node_id
  dsimp only
  simp only [FILE_FREQUENCY]
  refine ⟨?_, ?_, ?_, ?_, ?_⟩
  · intro h
    rw [if_pos]
    rcases h with h0 | hdiv
    · exact Or.inl h0
    · exact Or.inr (hb.mp hdiv)
  · intro hp hbyp hhigh
    subst hp
    rw [if_neg ?_, if_pos rfl, if_pos hhigh, max_pyInt_one]
    rintro (h | h)
    · exact Nat.one_ne_zero h
    · exact hbyp (hb.mpr h)
  · intro hp hbyp hhigh
    subst hp
    rw [if_neg ?_, if_pos rfl, if_neg hhigh]
    rintro (h | h)
    · exact Nat.one_ne_zero h
    · exact hbyp (hb.mpr h)
  · intro hp hbyp hcase
    subst hp
    rw [if_neg ?_, if_neg (by omega : ¬ (2 : Nat) = 1), if_pos rfl, if_pos hcase, max_pyInt_one]
    rintro (h | h)
    · omega
    · exact hbyp (hb.mpr h)
  · intro hp hbyp hcase
    subst hp
    rw [if_neg ?_, if_neg (by omega : ¬ (2 : Nat) = 1), if_pos rfl, if_neg hcase]
    rintro (h | h)
    · omega
    · exact hbyp (hb.mpr h)

/-- C3 witness: the amended selection at a concrete input — a priority-0
request on the fresh two-node state selects `ranked[0]`. -/
theorem C3_tiered_selection_witness :
    get_effective_node_id sA [0, 1] 0 = ([0, 1] : List Nat).getD 0 0 :=
  (C3_tiered_selection sA [0, 1] 0 (by norm_num [sA])).1 (Or.inl rfl)

/-- C4 amended: when the reservation would drive the selected node's
availability to zero or below, `placement_node_id` fails the defensive
assertion — an AssertionError propagating out of the call, not a returned
NoCapacity value — and the decrement is left in place (no rollback), while
`effective` and the priority counters are untouched. -/
theorem C4_reservation_assert (s : PSL) (p : Nat) (persist : Bool) (node : Nat)
    (h1 : ¬ s.num = 1)
    (hnode : node = get_effective_node_id s (sorted_eff_list s.effective) p)
    (hfail : s.available.getD node 0 - s.block_size ≤ 0) :
    (placement_node_id s p persist).2 = .assertFail ∧
    (placement_node_id s p persist).1.available
      = s.available.set node (s.available.getD node 0 - s.block_size) ∧
    (placement_node_id s p persist).1.effective = s.effective ∧
    (placement_node_id s p persist).1.priority_counter = s.priority_counter := by
  subst hnode
  unfold placement_node_id
  rw [if_neg h1]
  dsimp only
  have hcond : (s.available.set (get_effective_node_id s (sorted_eff_list s.effective) p)
      (s.available.getD (get_effective_node_id s (sorted_eff_list s.effective) p) 0
        - s.block_size)).getD (get_effective_node_id s (sorted_eff_list s.effective) p) 0 ≤ 0 := by
    rw [getD_set_self]
    split
    · exact hfail
    · exact le_refl 0
  rw [if_pos hcond]
  exact ⟨rfl, rfl, rfl, rfl⟩

/-- C4 witness: the amended statement at the concrete one-block state. -/
theorem C4_reservation_assert_witness :
    (placement_node_id sC4 0 true).2 = .assertFail ∧
    (placement_node_id sC4 0 true).1.available
      = sC4.available.set 0 (sC4.available.getD 0 0 - sC4.block_size) ∧
    (placement_node_id sC4 0 true).1.effective = sC4.effective ∧
    (placement_node_id sC4 0 true).1.priority_counter = sC4.priority_counter :=
  C4_reservation_assert sC4 0 true 0 (by decide)
    (by norm_num [get_effective_node_id, sorted_eff_list, sortDescIdx, insertDesc,
      List.range_succ, sC4, sA])
    (by norm_num [sC4, sA, List.getD])

/-- C8 counterexample: `sC8` holds the file "f" of recorded size 1 on node 0
with `available[0] = 50`; delete credits `block_size = 10`, leaving 60 — not
the 51 that crediting the recorded size would give. -/
theorem C8_credit_size_cex :
    lookupMeta sC8.metadata "f" = some ⟨0, 2, 1⟩ ∧
    (delete_file sC8 "f" false).1.available.getD 0 0 = 60 ∧
    sC8.available.getD 0 0 + (1 : ℚ) = 51 ∧
    (60 : ℚ) ≠ 51 := by
  have hne : ("f" : String) ≠ "PSL" := by decide
  norm_num [delete_file, lookupMeta, removeKey, effectiveness_for_node, sC8, sA, hne,
    List.getD]

/-- C8 amended: delete of a present, non-reserved filename returns normally,
credits `block_size` (the fixed allocation unit — not the recorded file size)
back to the entry's node, recomputes THAT node's effectiveness (the resulting
`effective` array is exactly the old one with the entry's node overwritten by
`effFor` of the credited state) while leaving every other node's availability
and effectiveness untouched, and removes the entry from the catalog. -/
theorem C8_delete_credit (s : PSL) (f : String) (e : FileEntry) (persist : Bool)
    (hf : lookupMeta s.metadata f = some e)
    (hP : ¬ f = "PSL")
    (hlt : e.node_id < s.available.length)
    (hnd : KeysNodup s.metadata) :
    (delete_file s f persist).2 = .ok ∧
    (delete_file s f persist).1.available.getD e.node_id 0
      = s.available.getD e.node_id 0 + s.block_size ∧
    (∀ j, j ≠ e.node_id → (delete_file s f persist).1.available.getD j 0 = s.available.getD j 0) ∧
    (∀ j, j ≠ e.node_id → (delete_file s f persist).1.effective.getD j 0 = s.effective.getD j 0) ∧
    lookupMeta (delete_file s f persist).1.metadata f = none ∧
    (delete_file s f persist).1.effective
      = s.effective.set e.node_id
          (effFor { s with available :=
            s.available.set e.node_id (s.available.getD e.node_id 0 + s.block_size) } e.node_id) := by
  unfold delete_file
  rw [hf]
  dsimp only
  rw [if_neg hP]
  refine ⟨?_, ?_, ?_, ?_, ?_, ?_⟩
  · cases persist <;> rfl
  · rw [persistIf_available]
    simp only [effectiveness_for_node]
    rw [getD_set_self, if_pos hlt]
  · intro j hj
    rw [persistIf_available]
    simp only [effectiveness_for_node]
    exact getD_set_ne _ _ _ (Ne.symm hj)
  · intro j hj
    rw [persistIf_effective]
    simp only [effectiveness_for_node]
    exact getD_set_ne _ _ _ (Ne.symm hj)
  · rw [persistIf_metadata]
    simp only [effectiveness_for_node]
    exact lookupMeta_removeKey_self s.metadata f hnd
  · rw [persistIf_effective]
    simp only [effectiveness_for_node]

/-- C8 witness: deleting the size-1 entry of `sC8` returns normally, credits
one block (10) to node 0, overwrites node 0's effectiveness with the
recomputed score of the credited state, and removes the catalog entry. -/
theorem C8_delete_credit_witness :
    (delete_file sC8 "f" false).2 = .ok ∧
    (delete_file sC8 "f" false).1.available.getD 0 0
      = sC8.available.getD 0 0 + sC8.block_size ∧
    lookupMeta (delete_file sC8 "f" false).1.metadata "f" = none ∧
    (delete_file sC8 "f" false).1.effective
      = sC8.effective.set 0
          (effFor { sC8 with available :=
            sC8.available.set 0 (sC8.available.getD 0 0 + sC8.block_size) } 0) := by
  have h := C8_delete_credit sC8 "f" ⟨0, 2, 1⟩ false rfl (by decide) (by decide)
    (by simp [KeysNodup, sC8, sA])
  exact ⟨h.1, h.2.1, h.2.2.2.2.1, h.2.2.2.2.2⟩

/-- C10 witness: on the exhausted single-node cluster `sC10` an automatic
create still succeeds on node 0 with `available` untouched. -/
theorem C10_single_node_create_witness :
    (create_file sC10 "g" 5 none 2 true).2 = .ok 0 ∧
    (create_file sC10 "g" 5 none 2 true).1.available = sC10.available ∧
    (create_file sC10 "g" 5 none 2 true).1.effective = sC10.effective :=
  C10_single_node_create sC10 "g" 5 2 true rfl (by decide) (by decide)

end PSLModel
